import Mathlib

/-!
Verification of the event-sourced shopping-cart sample.

This file gives a shallow embedding of the repository's code:

* the `ShoppingCart` aggregate of `src/unnamed/part_000` (state, events,
  `evolve` fold, command methods with their assertion guards, the
  `EventStoreRepository`, `ApplicationService.on` and the
  `ShoppingCartService` command handlers);
* the weak-ETag revision adapter and the CRUD-sample shopping-cart fold of
  `src/samples/from_crud_to_eventsourcing/src/core/http.ts`.

TypeScript `number` quantities and prices are modelled as `Int` (subtraction
can go below zero), `Date` values as `Nat` timestamps, and `undefined`
fields of the not-yet-opened cart as `Option.none`.  Code that throws is
modelled with `Except`.  Events read from the store are runtime data, so the
event types carry an extra `unknown` constructor representing a payload
whose type tag matches none of the known cases (the `default:` branch of the
TypeScript `switch`).
-/

instance {ε α : Type} [DecidableEq ε] [DecidableEq α] :
    DecidableEq (Except ε α) := fun
  | .ok a, .ok b =>
    if h : a = b then .isTrue (by rw [h]) else
      .isFalse (by intro hc; cases hc; exact h rfl)
  | .error a, .error b =>
    if h : a = b then .isTrue (by rw [h]) else
      .isFalse (by intro hc; cases hc; exact h rfl)
  | .ok _, .error _ => .isFalse (by intro hc; cases hc)
  | .error _, .ok _ => .isFalse (by intro hc; cases hc)

@[simp] theorem except_bind_ok {ε α β : Type} (a : α) (f : α → Except ε β) :
    (Except.ok a >>= f) = f a := rfl

@[simp] theorem except_bind_error {ε α β : Type} (e : ε) (f : α → Except ε β) :
    ((Except.error e : Except ε α) >>= f) = Except.error e := rfl

@[simp] theorem except_map_ok {ε α β : Type} (g : α → β) (a : α) :
    Except.map g (Except.ok a : Except ε α) = Except.ok (g a) := rfl

@[simp] theorem except_map_error {ε α β : Type} (g : α → β) (e : ε) :
    Except.map g (Except.error e : Except ε α) = Except.error e := rfl

@[simp] theorem except_toOption_ok {ε α : Type} (a : α) :
    (Except.ok a : Except ε α).toOption = some a := rfl

@[simp] theorem except_toOption_error {ε α : Type} (e : ε) :
    (Except.error e : Except ε α).toOption = none := rfl

/-- `PricedProductItem` from the domain model: a cart line. -/
structure PricedProductItem where
  productId : String
  quantity : Int
  unitPrice : Int
deriving DecidableEq, Repr

/-- `ShoppingCartStatus` of `part_000`. -/
inductive ShoppingCartStatus where
  | Pending
  | Confirmed
  | Canceled
deriving DecidableEq, Repr

/-- `ShoppingCartEvent` union as consumed by `ShoppingCart.evolve` in
`part_000`.  The `shoppingCartId` of the four events built from `this._id`
is an `Option String` because the id of a default (never-opened) cart is
`undefined`.  `unknown` stands for a stored event whose type tag is none of
the known ones. -/
inductive ShoppingCartEvent where
  | opened (shoppingCartId : String) (clientId : String) (openedAt : Nat)
  | productItemAdded (shoppingCartId : Option String) (productItem : PricedProductItem)
  | productItemRemoved (shoppingCartId : Option String) (productItem : PricedProductItem)
  | confirmed (shoppingCartId : Option String) (confirmedAt : Nat)
  | canceled (shoppingCartId : Option String) (canceledAt : Nat)
  | unknown (tag : String)
deriving DecidableEq, Repr

/-- `ShoppingCartErrors` string-enum of `part_000`. -/
inductive ShoppingCartErrors where
  | CART_IS_ALREADY_CLOSED
  | PRODUCT_ITEM_NOT_FOUND
  | CART_IS_EMPTY
  | UNKNOWN_EVENT_TYPE
  | UNKNOWN_COMMAND_TYPE
deriving DecidableEq, Repr

/-- The `ShoppingCart` entity state of `part_000`.  Fields that are
`undefined!` in `ShoppingCart.default()` are `Option`s here. -/
structure ShoppingCart where
  id : Option String
  clientId : Option String
  status : Option ShoppingCartStatus
  openedAt : Option Nat
  productItems : List PricedProductItem
  confirmedAt : Option Nat
  canceledAt : Option Nat
deriving DecidableEq, Repr

/-- `ShoppingCart.default()`: every field `undefined`, `productItems`
defaulted to the empty array by the constructor default parameter. -/
def ShoppingCart.default : ShoppingCart :=
  { id := none, clientId := none, status := none, openedAt := none,
    productItems := [], confirmedAt := none, canceledAt := none }

/-- The line-matching predicate used throughout `part_000`:
`pi.productId === productId && pi.unitPrice === unitPrice`. -/
def sameKey (p pi : PricedProductItem) : Bool :=
  pi.productId == p.productId && pi.unitPrice == p.unitPrice

/-- The `ProductItemAddedToShoppingCart` branch of `ShoppingCart.evolve`:
find the first line with the same `(productId, unitPrice)`; if found,
increase its quantity in place, otherwise push a new line at the end. -/
def addToItems (items : List PricedProductItem) (p : PricedProductItem) :
    List PricedProductItem :=
  match items with
  | [] => [p]
  | pi :: rest =>
    if sameKey p pi then
      { pi with quantity := pi.quantity + p.quantity } :: rest
    else
      pi :: addToItems rest p

/-- The `ProductItemRemovedFromShoppingCart` branch of
`ShoppingCart.evolve`: find the first matching line; if absent return the
state unchanged; otherwise decrease its quantity, splicing the line out when
the result is `≤ 0`. -/
def removeFromItems (items : List PricedProductItem) (p : PricedProductItem) :
    List PricedProductItem :=
  match items with
  | [] => []
  | pi :: rest =>
    if sameKey p pi then
      if pi.quantity - p.quantity ≤ 0 then rest
      else { pi with quantity := pi.quantity - p.quantity } :: rest
    else
      pi :: removeFromItems rest p

/-- `ShoppingCart.evolve` of `part_000`, with the in-place mutation of the
TypeScript rendered as a value update.  The unreachable `default:` branch
throws `UNKNOWN_EVENT_TYPE`. -/
def ShoppingCart.evolve (state : ShoppingCart) :
    ShoppingCartEvent → Except ShoppingCartErrors ShoppingCart
  | .opened sid cid t =>
    .ok { state with id := some sid, clientId := some cid,
                     status := some .Pending, openedAt := some t,
                     productItems := [] }
  | .productItemAdded _ p =>
    .ok { state with productItems := addToItems state.productItems p }
  | .productItemRemoved _ p =>
    .ok { state with productItems := removeFromItems state.productItems p }
  | .confirmed _ t =>
    .ok { state with status := some .Confirmed, confirmedAt := some t }
  | .canceled _ t =>
    .ok { state with status := some .Canceled, canceledAt := some t }
  | .unknown _ => .error .UNKNOWN_EVENT_TYPE

/-- `events.reduce(evolve, getInitialState())` of
`EventStoreRepository.find`, specialised to the shopping cart: fold the
event sequence from the default state. -/
def ShoppingCart.rebuild (events : List ShoppingCartEvent) :
    Except ShoppingCartErrors ShoppingCart :=
  events.foldlM ShoppingCart.evolve ShoppingCart.default

/-- `assertIsPending` of `part_000`. -/
def ShoppingCart.assertIsPending (c : ShoppingCart) :
    Except ShoppingCartErrors Unit :=
  if c.status = some ShoppingCartStatus.Pending then .ok ()
  else .error .CART_IS_ALREADY_CLOSED

/-- The quantity of the first line matching `(productId, unitPrice)`,
defaulting to `0` when absent (`?.quantity ?? 0`). -/
def matchingQuantity (items : List PricedProductItem)
    (p : PricedProductItem) : Int :=
  match items.find? (sameKey p) with
  | some pi => pi.quantity
  | none => 0

/-- `assertProductItemExists` of `part_000`: fail with
`PRODUCT_ITEM_NOT_FOUND` when the current quantity of the matching line is
below the requested one. -/
def ShoppingCart.assertProductItemExists (c : ShoppingCart)
    (p : PricedProductItem) : Except ShoppingCartErrors Unit :=
  if matchingQuantity c.productItems p < p.quantity then
    .error .PRODUCT_ITEM_NOT_FOUND
  else .ok ()

/-- `assertIsNotEmpty` of `part_000`. -/
def ShoppingCart.assertIsNotEmpty (c : ShoppingCart) :
    Except ShoppingCartErrors Unit :=
  if c.productItems = [] then .error .CART_IS_EMPTY else .ok ()

/-- `ShoppingCart.open` (renamed: `open` is a Lean keyword).  The method
performs no check at all and unconditionally returns the `Opened` event. -/
def ShoppingCart.openCart (_c : ShoppingCart) (shoppingCartId : String)
    (clientId : String) (now : Nat) : ShoppingCartEvent :=
  .opened shoppingCartId clientId now

/-- `ShoppingCart.addProductItem` of `part_000`. -/
def ShoppingCart.addProductItem (c : ShoppingCart) (p : PricedProductItem) :
    Except ShoppingCartErrors ShoppingCartEvent := do
  c.assertIsPending
  .ok (.productItemAdded c.id p)

/-- `ShoppingCart.removeProductItem` of `part_000`. -/
def ShoppingCart.removeProductItem (c : ShoppingCart)
    (p : PricedProductItem) : Except ShoppingCartErrors ShoppingCartEvent := do
  c.assertIsPending
  c.assertProductItemExists p
  .ok (.productItemRemoved c.id p)

/-- `ShoppingCart.confirm` of `part_000`. -/
def ShoppingCart.confirm (c : ShoppingCart) (now : Nat) :
    Except ShoppingCartErrors ShoppingCartEvent := do
  c.assertIsPending
  c.assertIsNotEmpty
  .ok (.confirmed c.id now)

/-- `ShoppingCart.cancel` of `part_000`. -/
def ShoppingCart.cancel (c : ShoppingCart) (now : Nat) :
    Except ShoppingCartErrors ShoppingCartEvent := do
  c.assertIsPending
  .ok (.canceled c.id now)

/-! ## Event store, repository and application service -/

/-- The in-memory event store contents: one entry per stream. -/
abbrev EventStoreState := List (String × List ShoppingCartEvent)

/-- Errors surfaced by the repository layer: a missing stream, or a domain
error raised by the aggregate. -/
inductive RepoError where
  | StreamNotFound
  | Domain (e : ShoppingCartErrors)
deriving DecidableEq, Repr

/-- Modelled from the spec: `EventStore.readStream` is declared in
`businessLogic.solved.test` which is not part of the sources; per §6 it
returns the ordered event sequence of the stream and "fails with
`StreamNotFound`" when the stream is absent. -/
def readStream (st : EventStoreState) (id : String) :
    Except RepoError (List ShoppingCartEvent) :=
  match st.find? (fun kv => kv.1 == id) with
  | some kv => .ok kv.2
  | none => .error .StreamNotFound

/-- Modelled from the spec: `EventStore.appendToStream` is declared outside
the sources; per §6 it appends the events at the end of the stream (the
`part_000` call site passes no expected revision, so the append is
unconditional and creates the stream when absent). -/
def appendToStream (st : EventStoreState) (id : String)
    (events : List ShoppingCartEvent) : EventStoreState :=
  match st with
  | [] => [(id, events)]
  | (k, l) :: rest =>
    if k == id then (k, l ++ events) :: rest
    else (k, l) :: appendToStream rest id events

/-- `EventStoreRepository.find` of `part_000`: read the stream and reduce it
with `evolve` starting from `getInitialState()`. -/
def EventStoreRepository.find (st : EventStoreState) (id : String) :
    Except RepoError ShoppingCart := do
  let events ← readStream st id
  events.foldlM (fun s e => (ShoppingCart.evolve s e).mapError .Domain)
    ShoppingCart.default

/-- `EventStoreRepository.store` of `part_000`: an empty event list returns
immediately; otherwise the events are handed to the event store's
`appendToStream`.  The append operation is a parameter (as the `eventStore`
collaborator is in the TypeScript constructor), so that the early return
provably consults it on no code path. -/
def EventStoreRepository.store
    (appendFn : EventStoreState → String → List ShoppingCartEvent → EventStoreState)
    (st : EventStoreState) (id : String)
    (events : List ShoppingCartEvent) : EventStoreState :=
  if events = [] then st else appendFn st id events

/-- `ApplicationService.on` of `part_000`: find the aggregate, run the
command handler on it, store the produced events.  A handler throw
propagates before `store` is reached. -/
def ApplicationService.on (st : EventStoreState) (id : String)
    (handle : ShoppingCart → Except ShoppingCartErrors (List ShoppingCartEvent)) :
    Except RepoError EventStoreState := do
  let aggregate ← EventStoreRepository.find st id
  match handle aggregate with
  | .error e => .error (.Domain e)
  | .ok result => .ok (EventStoreRepository.store appendToStream st id result)

/-- `OpenShoppingCart` command of `part_000`. -/
structure OpenShoppingCart where
  shoppingCartId : String
  clientId : String
  now : Nat

/-- `AddProductItemToShoppingCart` command of `part_000`. -/
structure AddProductItemToShoppingCart where
  shoppingCartId : String
  productItem : PricedProductItem

/-- `RemoveProductItemFromShoppingCart` command of `part_000`. -/
structure RemoveProductItemFromShoppingCart where
  shoppingCartId : String
  productItem : PricedProductItem

/-- `ConfirmShoppingCart` command of `part_000`. -/
structure ConfirmShoppingCart where
  shoppingCartId : String
  now : Nat

/-- `ShoppingCartService.open` of `part_000` (renamed, `open` being a Lean
keyword). -/
def ShoppingCartService.openCart (st : EventStoreState)
    (cmd : OpenShoppingCart) : Except RepoError EventStoreState :=
  ApplicationService.on st cmd.shoppingCartId
    (fun cart => .ok [cart.openCart cmd.shoppingCartId cmd.clientId cmd.now])

/-- `ShoppingCartService.addProductItem` of `part_000`. -/
def ShoppingCartService.addProductItem (st : EventStoreState)
    (cmd : AddProductItemToShoppingCart) : Except RepoError EventStoreState :=
  ApplicationService.on st cmd.shoppingCartId
    (fun cart => (cart.addProductItem cmd.productItem).map ([·]))

/-- `ShoppingCartService.removeProductItem` of `part_000`. -/
def ShoppingCartService.removeProductItem (st : EventStoreState)
    (cmd : RemoveProductItemFromShoppingCart) :
    Except RepoError EventStoreState :=
  ApplicationService.on st cmd.shoppingCartId
    (fun cart => (cart.removeProductItem cmd.productItem).map ([·]))

/-- `ShoppingCartService.confirm` of `part_000`. -/
def ShoppingCartService.confirm (st : EventStoreState)
    (cmd : ConfirmShoppingCart) : Except RepoError EventStoreState :=
  ApplicationService.on st cmd.shoppingCartId
    (fun cart => (cart.confirm cmd.now).map ([·]))

/-! ## The CRUD-sample shopping cart fold (`http.ts`, second document) -/

/-- `ShoppingCartStatus` of the CRUD sample (the composite `Closed` flag
value is never assigned by the fold and is omitted). -/
inductive CrudStatus where
  | Opened
  | Confirmed
  | Cancelled
deriving DecidableEq, Repr

/-- The CRUD-sample `ShoppingCartEvent` union, plus `unknown` for a stored
event with an unrecognised type tag (the `default:` branch). -/
inductive CrudEvent where
  | opened (shoppingCartId : String) (openedAt : String)
  | productItemAdded (shoppingCartId : String) (productItem : PricedProductItem)
  | productItemRemoved (shoppingCartId : String) (productItem : PricedProductItem)
  | confirmed (shoppingCartId : String) (confirmedAt : String)
  | unknown (tag : String)
deriving DecidableEq, Repr

/-- The CRUD-sample `ShoppingCart` entity interface. -/
structure CrudShoppingCart where
  id : String
  status : CrudStatus
  productItems : List PricedProductItem
deriving DecidableEq, Repr

/-- The `when` function passed to `StreamAggregator` in `getShoppingCart`
(`http.ts`).  The `addProductItem` / `removeProductItem` helpers live in
`productItem.ts`, which is not part of the sources; they are modelled from
the spec's fold semantics (§4.2: add finds the line by `(productId,
unitPrice)` and increases its quantity or appends; remove skips an absent
line and deletes a line whose quantity drops to `≤ 0`), i.e. by `addToItems`
and `removeFromItems` above.  The `default:` branch logs the unknown event
and returns `currentState`. -/
def crudWhen (currentState : CrudShoppingCart) : CrudEvent → CrudShoppingCart
  | .opened sid _ => { id := sid, status := .Opened, productItems := [] }
  | .productItemAdded _ p =>
    { currentState with productItems := addToItems currentState.productItems p }
  | .productItemRemoved _ p =>
    { currentState with productItems := removeFromItems currentState.productItems p }
  | .confirmed _ _ => { currentState with status := .Confirmed }
  | .unknown _ => currentState

/-! ## Weak-ETag revision adapter (`http.ts`, first document)

`WeakETagRegex = /W\/"(\d+.*)"/` and the `getWeakETagValue` / `toWeakETag`
functions.  The regular-expression search is embedded by its operational
semantics: `exec` finds the leftmost position at which the pattern matches;
at such a position `\d+` requires one digit right after `W/"`, and the
greedy `\d+.*` then captures everything up to the last double quote that is
reachable without crossing a line terminator (`.` matches any character
except `\n`, `\r`, U+2028, U+2029 — and a `"` is itself such a character,
so the eligible closing quotes are exactly the quotes inside the maximal
dot-matchable prefix). -/

/-- A character the JavaScript `.` metacharacter matches. -/
def dotChar (c : Char) : Bool :=
  c ≠ '\n' && c ≠ '\r' && c ≠ '\u2028' && c ≠ '\u2029'

/-- The characters standing before the last eligible closing quote: scan the
dot-matchable prefix and return everything before its last `"`, or `none`
when no eligible `"` exists. -/
def beforeLastQuote : List Char → Option (List Char)
  | [] => none
  | c :: cs =>
    if dotChar c then
      match beforeLastQuote cs with
      | some pre => some (c :: pre)
      | none => if c == '"' then some [] else none
    else none

/-- Try to match `W/"(\d+.*)"` at the head of the list, returning the
capture group on success. -/
def weakETagMatchAt : List Char → Option (List Char)
  | a :: b :: c :: d :: rest =>
    if a = 'W' ∧ b = '/' ∧ c = '"' ∧ d.isDigit = true then
      (beforeLastQuote rest).map (fun pre => d :: pre)
    else none
  | _ => none

/-- The `exec` search: try every start position from the left, returning the
capture of the first successful one. -/
def weakETagScan : List Char → Option (List Char)
  | [] => none
  | c :: cs =>
    match weakETagMatchAt (c :: cs) with
    | some cap => some cap
    | none => weakETagScan cs

/-- Errors of the ETag adapter (`ETagErrors` in `http.ts`). -/
inductive ETagErrors where
  | WRONG_WEAK_ETAG_FORMAT
  | MISSING_HEADER
deriving DecidableEq, Repr

/-- `getWeakETagValue` of `http.ts`: run the regex against the token and
return the capture group, throwing `WRONG_WEAK_ETAG_FORMAT` when the regex
does not match. -/
def getWeakETagValue (etag : String) : Except ETagErrors String :=
  match weakETagScan etag.data with
  | some cap => .ok (String.mk cap)
  | none => .error .WRONG_WEAK_ETAG_FORMAT

/-- `toWeakETag` of `http.ts`, at a natural-number revision:
the template literal `W/"${value}"`. -/
def toWeakETag (value : Nat) : String :=
  "W/\"" ++ Nat.repr value ++ "\""

/-- The value of a string of decimal digit characters. -/
def parseDigits (l : List Char) : Nat :=
  l.foldl (fun a c => 10 * a + (c.toNat - 48)) 0

/-- Modelled from the spec: `assertUnsignedBigInt` lives in
`core/validation.ts`, which is not part of the sources; per §4.4 the adapter
"decodes the inverse, rejecting malformed tokens with
`InvalidRevisionFormat`" — a non-empty all-digit string parses to its value,
anything else is rejected. -/
def assertUnsignedBigInt (s : String) : Except ETagErrors Nat :=
  if s.data ≠ [] ∧ s.data.all Char.isDigit then .ok (parseDigits s.data)
  else .error .WRONG_WEAK_ETAG_FORMAT

/-- The full decode used by `getExpectedRevision`: unwrap the weak ETag,
then parse the revision number. -/
def decodeRevision (etag : String) : Except ETagErrors Nat :=
  (getWeakETagValue etag).bind assertUnsignedBigInt

/-- A declarative rendering of "the regex matches somewhere": the input
splits around an occurrence of `W/"` followed by one digit and, later on
the same line, a closing `"`. -/
def hasWeakETagMatch (l : List Char) : Prop :=
  ∃ pre d mid suf, l = pre ++ 'W' :: '/' :: '"' :: d :: (mid ++ '"' :: suf) ∧
    d.isDigit = true ∧ mid.all dotChar = true

/-! ## Concrete fixtures used by witnesses and counterexamples -/

/-- A store whose only stream already holds an `Opened` event. -/
def openedStore : EventStoreState :=
  [("cart-1", [.opened "cart-1" "client-1" 0])]

/-- The cart folded from `openedStore`'s stream. -/
def openedCart : ShoppingCart :=
  { ShoppingCart.default with
      id := some "cart-1", clientId := some "client-1",
      status := some .Pending, openedAt := some 0, productItems := [] }

/-- A store whose stream holds an opened cart with one line `{P1, 10, 1}`. -/
def pendingStore : EventStoreState :=
  [("cart-1", [.opened "cart-1" "client-1" 0,
               .productItemAdded (some "cart-1") ⟨"P1", 1, 10⟩])]

/-- The cart folded from `pendingStore`'s stream. -/
def pendingCart : ShoppingCart :=
  { ShoppingCart.default with
      id := some "cart-1", clientId := some "client-1",
      status := some .Pending, openedAt := some 0,
      productItems := [⟨"P1", 1, 10⟩] }

/-- A cart that has reached the terminal `Confirmed` status. -/
def demoConfirmedCart : ShoppingCart :=
  { ShoppingCart.default with
      id := some "cart-1", clientId := some "client-1",
      status := some .Confirmed, openedAt := some 0,
      productItems := [⟨"P1", 1, 10⟩], confirmedAt := some 2 }

/-- A CRUD-sample cart with one line. -/
def demoCrudCart : CrudShoppingCart :=
  { id := "cart-9", status := .Opened, productItems := [⟨"P1", 2, 10⟩] }

/-- Every line of the list has a strictly positive quantity. -/
def allPositive (items : List PricedProductItem) : Prop :=
  ∀ pi ∈ items, 0 < pi.quantity

instance (items : List PricedProductItem) : Decidable (allPositive items) := by
  unfold allPositive
  exact List.decidableBAll _ items

/-- Every `ProductItemAddedToShoppingCart` event of the sequence carries a
strictly positive quantity. -/
def addQuantitiesPositive (events : List ShoppingCartEvent) : Bool :=
  events.all fun e =>
    match e with
    | .productItemAdded _ p => decide (0 < p.quantity)
    | _ => true

/-! ## C9 — storing an empty event sequence is a no-op -/

/-- C9: for every entity id, `EventStoreRepository.store` with an empty
event sequence returns the store unchanged, whatever the event store's
append operation does — so `appendToStream` is never consulted. -/
theorem store_empty_events_noop
    (appendFn : EventStoreState → String → List ShoppingCartEvent → EventStoreState)
    (st : EventStoreState) (id : String) :
    EventStoreRepository.store appendFn st id [] = st := by
  simp [EventStoreRepository.store]

/-! ## C2 — an absent stream reads as "not found" -/

/-- C2: when the stream is absent from the store, `EventStoreRepository.find`
returns the `StreamNotFound` error — the fold never runs on the undefined
initial state — and this outcome is distinct from an opened-but-empty cart,
which folds to `.ok` with status `Pending` and no lines. -/
theorem find_absent_stream_not_found (st : EventStoreState) (id : String)
    (h : st.find? (fun kv => kv.1 == id) = none) :
    EventStoreRepository.find st id = .error .StreamNotFound ∧
    (∀ sid cid t, ShoppingCart.rebuild [.opened sid cid t] =
      .ok { ShoppingCart.default with
              id := some sid, clientId := some cid,
              status := some .Pending, openedAt := some t,
              productItems := [] }) := by
  constructor
  · simp [EventStoreRepository.find, readStream, h]
  · intro sid cid t
    rfl

/-- Witness for C2 at the empty store. -/
theorem find_absent_stream_not_found_witness :
    EventStoreRepository.find [] "cart-1" = .error .StreamNotFound :=
  (find_absent_stream_not_found [] "cart-1" rfl).1

/-! ## C3 — `Open` performs no existence check -/

/-- C3 counterexample: issuing `Open` against a stream that already exists
is not rejected — no `AlreadyExists` error exists in the module — and a
second `Opened` event is appended to the stream. -/
theorem open_existing_stream_appends_again :
    ShoppingCartService.openCart openedStore ⟨"cart-1", "client-2", 1⟩ =
      .ok [("cart-1", [.opened "cart-1" "client-1" 0,
                       .opened "cart-1" "client-2" 1])] := by
  decide

/-- C3 amended: `ShoppingCart.open` checks nothing and always returns an
`Opened` event; consequently, whenever the stream folds successfully (in
particular when it already exists), the service-level `open` succeeds and
appends a further `Opened` event instead of failing with `AlreadyExists`. -/
theorem open_never_checks_existence (st : EventStoreState)
    (id cid : String) (now : Nat) (c : ShoppingCart)
    (hfind : EventStoreRepository.find st id = .ok c) :
    (∀ (c' : ShoppingCart) sid cl n,
        c'.openCart sid cl n = .opened sid cl n) ∧
    ShoppingCartService.openCart st ⟨id, cid, now⟩ =
      .ok (appendToStream st id [.opened id cid now]) := by
  constructor
  · intro c' sid cl n
    rfl
  · simp [ShoppingCartService.openCart, ApplicationService.on, hfind,
          ShoppingCart.openCart, EventStoreRepository.store]

/-- Witness for C3's amended statement on a store whose stream exists. -/
theorem open_never_checks_existence_witness :
    ShoppingCartService.openCart openedStore ⟨"cart-1", "client-3", 5⟩ =
      .ok (appendToStream openedStore "cart-1"
            [.opened "cart-1" "client-3" 5]) :=
  (open_never_checks_existence openedStore "cart-1" "client-3" 5 openedCart
    (by decide)).2

/-! ## C8 — terminal statuses and the command guards -/

/-- C8 counterexample: the fold itself is unguarded, so a terminal status
does change under the fold — applying a `Canceled` event to a `Confirmed`
cart overwrites the status. -/
theorem fold_changes_terminal_status :
    ShoppingCart.evolve demoConfirmedCart (.canceled (some "cart-1") 7) =
      .ok { demoConfirmedCart with
              status := some .Canceled, canceledAt := some 7 } ∧
    demoConfirmedCart.status = some .Confirmed := by
  decide

/-- C8 amended: once the status is `Confirmed` or `Canceled`, every command
among add/remove/confirm/cancel is rejected with `CART_IS_ALREADY_CLOSED`
and no event is produced, and `Confirmed`/`Canceled` events are only ever
emitted by commands from a `Pending` cart; the fold itself, however, is
unguarded (see the counterexample). -/
theorem closed_cart_rejects_all_commands (c : ShoppingCart)
    (h : c.status = some .Confirmed ∨ c.status = some .Canceled) :
    (∀ p, c.addProductItem p = .error .CART_IS_ALREADY_CLOSED) ∧
    (∀ p, c.removeProductItem p = .error .CART_IS_ALREADY_CLOSED) ∧
    (∀ t, c.confirm t = .error .CART_IS_ALREADY_CLOSED) ∧
    (∀ t, c.cancel t = .error .CART_IS_ALREADY_CLOSED) ∧
    (∀ (c' : ShoppingCart) t ev, c'.confirm t = .ok ev →
        c'.status = some .Pending) ∧
    (∀ (c' : ShoppingCart) t ev, c'.cancel t = .ok ev →
        c'.status = some .Pending) := by
  have hnp : ¬ c.status = some ShoppingCartStatus.Pending := by
    rcases h with h | h <;> simp [h]
  refine ⟨?_, ?_, ?_, ?_, ?_, ?_⟩
  · intro p
    simp [ShoppingCart.addProductItem, ShoppingCart.assertIsPending, hnp]
  · intro p
    simp [ShoppingCart.removeProductItem, ShoppingCart.assertIsPending, hnp]
  · intro t
    simp [ShoppingCart.confirm, ShoppingCart.assertIsPending, hnp]
  · intro t
    simp [ShoppingCart.cancel, ShoppingCart.assertIsPending, hnp]
  · intro c' t ev hok
    by_cases hp : c'.status = some ShoppingCartStatus.Pending
    · exact hp
    · simp [ShoppingCart.confirm, ShoppingCart.assertIsPending, hp] at hok
  · intro c' t ev hok
    by_cases hp : c'.status = some ShoppingCartStatus.Pending
    · exact hp
    · simp [ShoppingCart.cancel, ShoppingCart.assertIsPending, hp] at hok

/-- Witness for C8's amended statement on a confirmed cart. -/
theorem closed_cart_rejects_all_commands_witness :
    demoConfirmedCart.addProductItem ⟨"P2", 1, 5⟩ =
      .error .CART_IS_ALREADY_CLOSED :=
  (closed_cart_rejects_all_commands demoConfirmedCart (Or.inl rfl)).1
    ⟨"P2", 1, 5⟩

/-! ## C5 — removing more than the cart holds -/

/-- C5: for a `Pending` cart, a removal whose quantity exceeds that of the
matching `(productId, unitPrice)` line (an absent line counting as `0`)
fails with `PRODUCT_ITEM_NOT_FOUND` — at the service level the command
returns that error, so no event reaches the store and the stream is
unchanged — while a removal within the available quantity emits the
`ProductItemRemoved` event. -/
theorem remove_exceeding_quantity (st : EventStoreState) (id : String)
    (c : ShoppingCart) (p : PricedProductItem)
    (hfind : EventStoreRepository.find st id = .ok c)
    (hp : c.status = some .Pending) :
    (matchingQuantity c.productItems p < p.quantity →
      c.removeProductItem p = .error .PRODUCT_ITEM_NOT_FOUND ∧
      ShoppingCartService.removeProductItem st ⟨id, p⟩ =
        .error (.Domain .PRODUCT_ITEM_NOT_FOUND)) ∧
    (p.quantity ≤ matchingQuantity c.productItems p →
      c.removeProductItem p = .ok (.productItemRemoved c.id p)) := by
  constructor
  · intro hlt
    have hagg : c.removeProductItem p = .error .PRODUCT_ITEM_NOT_FOUND := by
      simp [ShoppingCart.removeProductItem, ShoppingCart.assertIsPending,
            ShoppingCart.assertProductItemExists, hp, hlt]
    refine ⟨hagg, ?_⟩
    simp [ShoppingCartService.removeProductItem, ApplicationService.on,
          hfind, hagg]
  · intro hge
    have hnlt : ¬ matchingQuantity c.productItems p < p.quantity :=
      not_lt.mpr hge
    simp [ShoppingCart.removeProductItem, ShoppingCart.assertIsPending,
          ShoppingCart.assertProductItemExists, hp, hnlt]

/-- Witness for C5: the spec's own scenario — one line `{P1, 10, qty 1}`,
removal of `qty 2` fails and the stream is untouched. -/
theorem remove_exceeding_quantity_witness :
    pendingCart.removeProductItem ⟨"P1", 2, 10⟩ =
      .error .PRODUCT_ITEM_NOT_FOUND ∧
    ShoppingCartService.removeProductItem pendingStore
        ⟨"cart-1", ⟨"P1", 2, 10⟩⟩ =
      .error (.Domain .PRODUCT_ITEM_NOT_FOUND) :=
  (remove_exceeding_quantity pendingStore "cart-1" pendingCart ⟨"P1", 2, 10⟩
    (by decide) rfl).1 (by decide)

/-! ## C1 — unknown event types in the two folds -/

/-- C1 counterexample: the CRUD sample's fold does not fail on an event of
unknown type — it logs and silently returns the prior state unchanged. -/
theorem crud_fold_unknown_event_returns_state :
    crudWhen demoCrudCart (.unknown "mystery-event") = demoCrudCart := by
  decide

/-- C1 amended: `ShoppingCart.evolve` of `part_000` fails fatally with
`UNKNOWN_EVENT_TYPE` on every unknown event — a sequence ending in one never
folds successfully — while the CRUD sample's fold returns the prior state
unchanged on unknown events. -/
theorem unknown_event_fold_behavior :
    (∀ (s : ShoppingCart) (tag : String),
      s.evolve (.unknown tag) = .error .UNKNOWN_EVENT_TYPE) ∧
    (∀ (events : List ShoppingCartEvent) (tag : String),
      (ShoppingCart.rebuild (events ++ [.unknown tag])).toOption = none) ∧
    (∀ (s : CrudShoppingCart) (tag : String), crudWhen s (.unknown tag) = s) := by
  refine ⟨fun s tag => rfl, ?_, fun s tag => rfl⟩
  intro events tag
  unfold ShoppingCart.rebuild
  rw [List.foldlM_append]
  cases h : events.foldlM ShoppingCart.evolve ShoppingCart.default with
  | error e => simp
  | ok s => simp [ShoppingCart.evolve]

/-! ## List-level facts about the two line-item operations -/

theorem addToItems_first_match (l1 : List PricedProductItem)
    (pi : PricedProductItem) (l2 : List PricedProductItem)
    (p : PricedProductItem) (h1 : ∀ x ∈ l1, sameKey p x = false)
    (h2 : sameKey p pi = true) :
    addToItems (l1 ++ pi :: l2) p =
      l1 ++ { pi with quantity := pi.quantity + p.quantity } :: l2 := by
  induction l1 with
  | nil => simp [addToItems, h2]
  | cons a l1 ih =>
    have ha : sameKey p a = false := h1 a (List.mem_cons_self a l1)
    simp only [List.cons_append, addToItems, ha, Bool.false_eq_true,
      if_false, List.cons.injEq, true_and]
    exact ih fun x hx => h1 x (List.mem_cons_of_mem a hx)

theorem addToItems_no_match (items : List PricedProductItem)
    (p : PricedProductItem) (h : ∀ x ∈ items, sameKey p x = false) :
    addToItems items p = items ++ [p] := by
  induction items with
  | nil => rfl
  | cons a rest ih =>
    have ha : sameKey p a = false := h a (List.mem_cons_self a rest)
    simp only [addToItems, ha, Bool.false_eq_true, if_false,
      List.cons_append, List.cons.injEq, true_and]
    exact ih fun x hx => h x (List.mem_cons_of_mem a hx)

theorem removeFromItems_no_match (items : List PricedProductItem)
    (p : PricedProductItem) (h : ∀ x ∈ items, sameKey p x = false) :
    removeFromItems items p = items := by
  induction items with
  | nil => rfl
  | cons a rest ih =>
    have ha : sameKey p a = false := h a (List.mem_cons_self a rest)
    simp only [removeFromItems, ha, Bool.false_eq_true, if_false,
      List.cons.injEq, true_and]
    exact ih fun x hx => h x (List.mem_cons_of_mem a hx)

theorem removeFromItems_first_match_depleted (l1 : List PricedProductItem)
    (pi : PricedProductItem) (l2 : List PricedProductItem)
    (p : PricedProductItem) (h1 : ∀ x ∈ l1, sameKey p x = false)
    (h2 : sameKey p pi = true) (h3 : pi.quantity - p.quantity ≤ 0) :
    removeFromItems (l1 ++ pi :: l2) p = l1 ++ l2 := by
  induction l1 with
  | nil => simp [removeFromItems, h2, h3]
  | cons a l1 ih =>
    have ha : sameKey p a = false := h1 a (List.mem_cons_self a l1)
    simp only [List.cons_append, removeFromItems, ha, Bool.false_eq_true,
      if_false, List.cons.injEq, true_and]
    exact ih fun x hx => h1 x (List.mem_cons_of_mem a hx)

theorem allPositive_addToItems (items : List PricedProductItem)
    (p : PricedProductItem) (hitems : allPositive items)
    (hp : 0 < p.quantity) : allPositive (addToItems items p) := by
  induction items with
  | nil =>
    intro pi hpi
    simp only [addToItems, List.mem_singleton] at hpi
    simpa [hpi]
  | cons a rest ih =>
    have ha : 0 < a.quantity := hitems a (List.mem_cons_self a rest)
    have hrest : allPositive rest :=
      fun x hx => hitems x (List.mem_cons_of_mem a hx)
    intro pi hpi
    simp only [addToItems] at hpi
    by_cases hk : sameKey p a
    · simp only [hk, if_true, List.mem_cons] at hpi
      rcases hpi with rfl | hpi
      · simpa using by omega
      · exact hrest pi hpi
    · simp only [hk, Bool.false_eq_true, if_false, List.mem_cons] at hpi
      rcases hpi with rfl | hpi
      · exact ha
      · exact ih hrest pi hpi

theorem allPositive_removeFromItems (items : List PricedProductItem)
    (p : PricedProductItem) (hitems : allPositive items) :
    allPositive (removeFromItems items p) := by
  induction items with
  | nil => exact hitems
  | cons a rest ih =>
    have ha : 0 < a.quantity := hitems a (List.mem_cons_self a rest)
    have hrest : allPositive rest :=
      fun x hx => hitems x (List.mem_cons_of_mem a hx)
    intro pi hpi
    simp only [removeFromItems] at hpi
    by_cases hk : sameKey p a
    · simp only [hk, if_true] at hpi
      by_cases hq : a.quantity - p.quantity ≤ 0
      · simp only [hq, if_true] at hpi
        exact hrest pi hpi
      · simp only [hq, if_false, List.mem_cons] at hpi
        rcases hpi with rfl | hpi
        · simpa using by omega
        · exact hrest pi hpi
    · simp only [hk, Bool.false_eq_true, if_false, List.mem_cons] at hpi
      rcases hpi with rfl | hpi
      · exact ha
      · exact ih hrest pi hpi

/-! ## C6 — positivity of line quantities under the fold -/

theorem rebuild_preserves_positive (events : List ShoppingCartEvent) :
    ∀ (s c : ShoppingCart), addQuantitiesPositive events = true →
      allPositive s.productItems →
      events.foldlM ShoppingCart.evolve s = .ok c →
      allPositive c.productItems := by
  induction events with
  | nil =>
    intro s c _ hs hok
    simp only [List.foldlM_nil] at hok
    cases hok
    exact hs
  | cons e rest ih =>
    intro s c hq hs hok
    rw [List.foldlM_cons] at hok
    have hq2 : addQuantitiesPositive rest = true := by
      simp only [addQuantitiesPositive, List.all_cons, Bool.and_eq_true] at hq
      exact hq.2
    cases e with
    | opened sid cid t =>
      refine ih _ c hq2 ?_ (by simpa [ShoppingCart.evolve] using hok)
      intro pi hpi
      exact absurd hpi (List.not_mem_nil pi)
    | productItemAdded sid p =>
      have hp : 0 < p.quantity := by
        simp only [addQuantitiesPositive, List.all_cons,
          Bool.and_eq_true] at hq
        simpa using hq.1
      exact ih _ c hq2 (allPositive_addToItems _ _ hs hp)
        (by simpa [ShoppingCart.evolve] using hok)
    | productItemRemoved sid p =>
      exact ih _ c hq2 (allPositive_removeFromItems _ _ hs)
        (by simpa [ShoppingCart.evolve] using hok)
    | confirmed sid t =>
      refine ih _ c hq2 ?_ (by simpa [ShoppingCart.evolve] using hok)
      exact hs
    | canceled sid t =>
      refine ih _ c hq2 ?_ (by simpa [ShoppingCart.evolve] using hok)
      exact hs
    | unknown tag =>
      simp [ShoppingCart.evolve] at hok

/-- Events for the C6 counterexample: nothing validates the quantity of an
add event, so a negative-quantity line enters the snapshot. -/
def negQtyEvents : List ShoppingCartEvent :=
  [.opened "cart-1" "client-1" 0,
   .productItemAdded (some "cart-1") ⟨"P1", -1, 10⟩]

/-- The snapshot folded from `negQtyEvents`. -/
def negQtyCart : ShoppingCart :=
  { ShoppingCart.default with
      id := some "cart-1", clientId := some "client-1",
      status := some .Pending, openedAt := some 0,
      productItems := [⟨"P1", -1, 10⟩] }

/-- C6 counterexample: the invariant does not hold for every event
sequence — an add event carrying quantity `-1` folds successfully into a
snapshot whose line has a negative quantity. -/
theorem fold_admits_nonpositive_quantity_line :
    ShoppingCart.rebuild negQtyEvents = .ok negQtyCart ∧
    ¬ allPositive negQtyCart.productItems := by
  decide

/-- C6 amended: for every event sequence whose add events all carry strictly
positive quantities, every line of the folded snapshot has a strictly
positive quantity; moreover the fold's remove branch leaves the line list
unchanged when no line matches, and deletes the matched line entirely when
its quantity would drop to zero or below. -/
theorem snapshot_quantities_positive (events : List ShoppingCartEvent)
    (c : ShoppingCart) (hq : addQuantitiesPositive events = true)
    (hok : ShoppingCart.rebuild events = .ok c) :
    allPositive c.productItems ∧
    (∀ items p, (∀ x ∈ items, sameKey p x = false) →
        removeFromItems items p = items) ∧
    (∀ l1 pi l2 p, (∀ x ∈ l1, sameKey p x = false) → sameKey p pi = true →
        pi.quantity - p.quantity ≤ 0 →
        removeFromItems (l1 ++ pi :: l2) p = l1 ++ l2) :=
  ⟨rebuild_preserves_positive events ShoppingCart.default c hq
      (fun pi hpi => absurd hpi (List.not_mem_nil pi)) hok,
   removeFromItems_no_match, removeFromItems_first_match_depleted⟩

/-- Events for the C6 witness: open, add two, remove one. -/
def demoPositiveEvents : List ShoppingCartEvent :=
  [.opened "cart-1" "client-1" 0,
   .productItemAdded (some "cart-1") ⟨"P1", 2, 10⟩,
   .productItemRemoved (some "cart-1") ⟨"P1", 1, 10⟩]

/-- The snapshot folded from `demoPositiveEvents`. -/
def demoPositiveCart : ShoppingCart :=
  { ShoppingCart.default with
      id := some "cart-1", clientId := some "client-1",
      status := some .Pending, openedAt := some 0,
      productItems := [⟨"P1", 1, 10⟩] }

/-- Witness for C6's amended statement. -/
theorem snapshot_quantities_positive_witness :
    allPositive demoPositiveCart.productItems :=
  (snapshot_quantities_positive demoPositiveEvents demoPositiveCart
    (by decide) (by decide)).1

/-! ## C7 — fold semantics of `ProductItemAdded` -/

/-- C7: the fold of a `ProductItemAdded` event updates `productItems` by
`addToItems` and leaves every other field of the state alone; when a line
with the event's `(productId, unitPrice)` exists, the first such line's
quantity grows by the event quantity with every other line and the order
untouched; when none exists, a fresh line is appended at the end. -/
theorem add_event_fold_semantics (c : ShoppingCart) (sid : Option String)
    (p : PricedProductItem) :
    (c.evolve (.productItemAdded sid p) =
      .ok { c with productItems := addToItems c.productItems p }) ∧
    (∀ l1 pi l2, c.productItems = l1 ++ pi :: l2 →
        (∀ x ∈ l1, sameKey p x = false) → sameKey p pi = true →
        addToItems c.productItems p =
          l1 ++ { pi with quantity := pi.quantity + p.quantity } :: l2) ∧
    ((∀ x ∈ c.productItems, sameKey p x = false) →
        addToItems c.productItems p = c.productItems ++ [p]) := by
  refine ⟨rfl, ?_, addToItems_no_match _ _⟩
  intro l1 pi l2 hsplit h1 h2
  rw [hsplit]
  exact addToItems_first_match l1 pi l2 p h1 h2

/-- A pending cart with two lines, for the C7 witness. -/
def demoAddCart : ShoppingCart :=
  { ShoppingCart.default with
      id := some "cart-1", clientId := some "client-1",
      status := some .Pending, openedAt := some 0,
      productItems := [⟨"P1", 2, 10⟩, ⟨"P2", 1, 5⟩] }

/-- Witness for C7: adding `{P1, 10, qty 3}` bumps the matching first line
to quantity `5` and leaves the other line in place. -/
theorem add_event_fold_semantics_witness :
    addToItems demoAddCart.productItems ⟨"P1", 3, 10⟩ =
      [] ++ (⟨"P1", 2 + 3, 10⟩ : PricedProductItem) :: [⟨"P2", 1, 5⟩] :=
  (add_event_fold_semantics demoAddCart (some "cart-1") ⟨"P1", 3, 10⟩).2.1
    [] ⟨"P1", 2, 10⟩ [⟨"P2", 1, 5⟩] rfl (by decide) (by decide)

/-! ## Decimal-digit facts about `Nat.repr` -/

/-- The decimal digit characters of `n`, by structural recursion on the
value; equal to what `Nat.toDigitsCore` computes. -/
def digitsRec (n : Nat) : List Char :=
  if n < 10 then [Nat.digitChar n]
  else digitsRec (n / 10) ++ [Nat.digitChar (n % 10)]
decreasing_by exact Nat.div_lt_self (by omega) (by omega)

theorem toDigitsCore_eq_digitsRec :
    ∀ (fuel n : Nat) (ds : List Char), n < fuel →
      Nat.toDigitsCore 10 fuel n ds = digitsRec n ++ ds := by
  intro fuel
  induction fuel with
  | zero => intro n ds h; omega
  | succ f ih =>
    intro n ds h
    unfold Nat.toDigitsCore
    by_cases h10 : n / 10 = 0
    · have hn : n < 10 := by omega
      rw [digitsRec]
      simp [h10, hn, Nat.mod_eq_of_lt hn]
    · have hn : ¬ n < 10 := by
        intro hc
        exact h10 (Nat.div_eq_of_lt hc)
      have hlt : n / 10 < f := by
        have hd : n / 10 < n := Nat.div_lt_self (by omega) (by omega)
        omega
      rw [digitsRec]
      simp only [h10, if_false, hn, ih (n / 10) _ hlt, List.append_assoc,
        List.singleton_append]

theorem repr_data_eq (n : Nat) : (Nat.repr n).data = digitsRec n := by
  unfold Nat.repr Nat.toDigits
  rw [toDigitsCore_eq_digitsRec (n + 1) n [] (Nat.lt_succ_self n)]
  simp [List.asString]

theorem digitChar_isDigit (m : Nat) (h : m < 10) :
    (Nat.digitChar m).isDigit = true := by
  interval_cases m <;> decide

theorem digitChar_toNat (m : Nat) (h : m < 10) :
    (Nat.digitChar m).toNat = 48 + m := by
  interval_cases m <;> decide

theorem digitsRec_all_digits (n : Nat) :
    (digitsRec n).all Char.isDigit = true := by
  induction n using Nat.strong_induction_on with
  | _ n ih =>
    rw [digitsRec]
    by_cases h : n < 10
    · simp [h, digitChar_isDigit n h]
    · have hd : n / 10 < n := Nat.div_lt_self (by omega) (by omega)
      simp [h, List.all_append, ih _ hd,
        digitChar_isDigit (n % 10) (Nat.mod_lt _ (by omega))]

theorem digitsRec_ne_nil (n : Nat) : digitsRec n ≠ [] := by
  rw [digitsRec]
  by_cases h : n < 10 <;> simp [h]

theorem parseDigits_digitsRec (n : Nat) : parseDigits (digitsRec n) = n := by
  induction n using Nat.strong_induction_on with
  | _ n ih =>
    rw [digitsRec]
    by_cases h : n < 10
    · simp [h, parseDigits, digitChar_toNat n h]
    · have hd : n / 10 < n := Nat.div_lt_self (by omega) (by omega)
      have hm : (Nat.digitChar (n % 10)).toNat = 48 + n % 10 :=
        digitChar_toNat (n % 10) (Nat.mod_lt _ (by omega))
      have hrec := ih _ hd
      simp only [h, if_false, parseDigits, List.foldl_append,
        List.foldl_cons, List.foldl_nil, hm] at hrec ⊢
      rw [hrec]
      omega

/-! ## Behaviour of the embedded regex search -/

theorem isDigit_bounds (c : Char) (h : c.isDigit = true) :
    48 ≤ c.val ∧ c.val ≤ 57 := by
  simpa [Char.isDigit, Bool.and_eq_true, decide_eq_true_eq, ge_iff_le]
    using h

theorem digit_dotChar (c : Char) (h : c.isDigit = true) : dotChar c = true := by
  obtain ⟨h1, h2⟩ := isDigit_bounds c h
  simp only [dotChar, Bool.and_eq_true, decide_eq_true_eq, ne_eq]
  refine ⟨⟨⟨?_, ?_⟩, ?_⟩, ?_⟩ <;> intro hc <;> subst hc
  · exact absurd h1 (by decide)
  · exact absurd h1 (by decide)
  · exact absurd h2 (by decide)
  · exact absurd h2 (by decide)

theorem beforeLastQuote_digits (l : List Char)
    (h : l.all Char.isDigit = true) :
    beforeLastQuote (l ++ ['"']) = some l := by
  induction l with
  | nil => decide
  | cons c cs ih =>
    have hc : c.isDigit = true := by
      simp only [List.all_cons, Bool.and_eq_true] at h
      exact h.1
    have hcs : cs.all Char.isDigit = true := by
      simp only [List.all_cons, Bool.and_eq_true] at h
      exact h.2
    simp only [List.cons_append, beforeLastQuote, digit_dotChar c hc, if_true]
    rw [List.append_eq, ih hcs]

theorem weakETagScan_roundtrip (l : List Char) (hne : l ≠ [])
    (hdig : l.all Char.isDigit = true) :
    weakETagScan ('W' :: '/' :: '"' :: (l ++ ['"'])) = some l := by
  cases l with
  | nil => exact absurd rfl hne
  | cons c cs =>
    have hc : c.isDigit = true := by
      simp only [List.all_cons, Bool.and_eq_true] at hdig
      exact hdig.1
    have hcs : cs.all Char.isDigit = true := by
      simp only [List.all_cons, Bool.and_eq_true] at hdig
      exact hdig.2
    simp [weakETagScan, weakETagMatchAt, hc, beforeLastQuote_digits cs hcs]

theorem blq_ne_none_of_split (mid suf : List Char)
    (h : mid.all dotChar = true) :
    beforeLastQuote (mid ++ '"' :: suf) ≠ none := by
  induction mid with
  | nil =>
    show beforeLastQuote ('"' :: suf) ≠ none
    unfold beforeLastQuote
    have hq : dotChar '"' = true := by decide
    simp only [hq, if_true]
    cases hrec : beforeLastQuote suf <;> simp [hrec]
  | cons m mid ih =>
    have hm : dotChar m = true := by
      simp only [List.all_cons, Bool.and_eq_true] at h
      exact h.1
    have hmid : mid.all dotChar = true := by
      simp only [List.all_cons, Bool.and_eq_true] at h
      exact h.2
    rw [List.cons_append]
    unfold beforeLastQuote
    simp only [hm, if_true]
    cases hrec : beforeLastQuote (mid ++ '"' :: suf)
    · exact absurd hrec (ih hmid)
    · simp [hrec]

theorem blq_some_split : ∀ (l pre : List Char),
    beforeLastQuote l = some pre →
    ∃ suf, l = pre ++ '"' :: suf ∧ pre.all dotChar = true := by
  intro l
  induction l with
  | nil => intro pre h; simp [beforeLastQuote] at h
  | cons c cs ih =>
    intro pre h
    unfold beforeLastQuote at h
    by_cases hd : dotChar c
    · simp only [hd, if_true] at h
      cases hq : beforeLastQuote cs with
      | some preTail =>
        rw [hq] at h
        simp only [Option.some.injEq] at h
        subst h
        obtain ⟨suf, hsuf, hall⟩ := ih preTail hq
        refine ⟨suf, ?_, ?_⟩
        · rw [List.cons_append, hsuf]
        · simp [List.all_cons, hd, hall]
      | none =>
        rw [hq] at h
        by_cases hc : (c == '"') = true
        · simp only [hc, if_true, Option.some.injEq] at h
          subst h
          have hceq : c = '"' := by
            have hcc := hc
            rwa [beq_iff_eq] at hcc
          subst hceq
          exact ⟨cs, rfl, rfl⟩
        · simp [hc] at h
    · simp [hd] at h

theorem matchAt_some_inv (l cap : List Char)
    (h : weakETagMatchAt l = some cap) :
    ∃ d rest pre, l = 'W' :: '/' :: '"' :: d :: rest ∧ d.isDigit = true ∧
      beforeLastQuote rest = some pre ∧ cap = d :: pre := by
  rcases l with _ | ⟨a, l⟩
  · simp [weakETagMatchAt] at h
  rcases l with _ | ⟨b, l⟩
  · simp [weakETagMatchAt] at h
  rcases l with _ | ⟨c, l⟩
  · simp [weakETagMatchAt] at h
  rcases l with _ | ⟨d, rest⟩
  · simp [weakETagMatchAt] at h
  by_cases hcond : a = 'W' ∧ b = '/' ∧ c = '"' ∧ d.isDigit = true
  · obtain ⟨rfl, rfl, rfl, hdig⟩ := hcond
    simp only [weakETagMatchAt, hdig, and_true, and_self, if_true,
      eq_self_iff_true, true_and] at h
    cases hq : beforeLastQuote rest with
    | none => rw [hq] at h; simp at h
    | some pre =>
      rw [hq] at h
      simp only [Option.map_some', Option.some.injEq] at h
      exact ⟨d, rest, pre, rfl, hdig, hq, h.symm⟩
  · simp only [weakETagMatchAt] at h
    rw [if_neg hcond] at h
    simp at h

theorem matchAt_ne_none_at (d : Char) (mid suf : List Char)
    (hd : d.isDigit = true) (hm : mid.all dotChar = true) :
    weakETagMatchAt ('W' :: '/' :: '"' :: d :: (mid ++ '"' :: suf)) ≠
      none := by
  simp only [weakETagMatchAt, hd, and_true, and_self, if_true,
    eq_self_iff_true, true_and]
  cases hq : beforeLastQuote (mid ++ '"' :: suf)
  · exact absurd hq (blq_ne_none_of_split mid suf hm)
  · simp [hq]

theorem scan_ne_none_of_match : ∀ (pre : List Char) (d : Char)
    (mid suf l : List Char),
    l = pre ++ 'W' :: '/' :: '"' :: d :: (mid ++ '"' :: suf) →
    d.isDigit = true → mid.all dotChar = true →
    weakETagScan l ≠ none := by
  intro pre
  induction pre with
  | nil =>
    intro d mid suf l hl hd hm
    subst hl
    rw [List.nil_append]
    unfold weakETagScan
    cases hma : weakETagMatchAt
        ('W' :: '/' :: '"' :: d :: (mid ++ '"' :: suf)) with
    | none => exact absurd hma (matchAt_ne_none_at d mid suf hd hm)
    | some cap => simp [hma]
  | cons a pre ih =>
    intro d mid suf l hl hd hm
    subst hl
    rw [List.cons_append]
    unfold weakETagScan
    cases hma : weakETagMatchAt
        (a :: (pre ++ 'W' :: '/' :: '"' :: d :: (mid ++ '"' :: suf))) with
    | some cap => simp [hma]
    | none =>
      simp only [hma]
      exact ih d mid suf _ rfl hd hm

theorem match_of_scan_some : ∀ (l cap : List Char),
    weakETagScan l = some cap → hasWeakETagMatch l := by
  intro l
  induction l with
  | nil => intro cap h; simp [weakETagScan] at h
  | cons c cs ih =>
    intro cap h
    unfold weakETagScan at h
    cases hma : weakETagMatchAt (c :: cs) with
    | some capHead =>
      obtain ⟨d, rest, pre, hshape, hdig, hq, _⟩ :=
        matchAt_some_inv (c :: cs) capHead hma
      obtain ⟨suf, hsuf, hall⟩ := blq_some_split rest pre hq
      refine ⟨[], d, pre, suf, ?_, hdig, hall⟩
      rw [List.nil_append, hshape, hsuf]
    | none =>
      rw [hma] at h
      obtain ⟨p2, d, mid, suf, hshape, hdig, hmid⟩ := ih cap h
      exact ⟨c :: p2, d, mid, suf, by rw [List.cons_append, hshape],
        hdig, hmid⟩

theorem scan_none_iff (l : List Char) :
    weakETagScan l = none ↔ ¬ hasWeakETagMatch l := by
  constructor
  · intro h hm
    obtain ⟨pre, d, mid, suf, hshape, hd, hmid⟩ := hm
    exact scan_ne_none_of_match pre d mid suf l hshape hd hmid h
  · intro h
    cases hs : weakETagScan l with
    | none => rfl
    | some cap => exact absurd (match_of_scan_some l cap hs) h

/-! ## C4 — revision round trip and malformed tokens -/

/-- C4 counterexample: not every malformed token is rejected.  `W/"7q"`
matches no `W/"<r>"`, yet `getWeakETagValue` accepts it and returns `7q`;
even the full decode accepts the malformed `xxW/"7"yy`, extracting `7`. -/
theorem malformed_token_decoded :
    getWeakETagValue "W/\"7q\"" = .ok "7q" ∧
    decodeRevision "xxW/\"7\"yy" = .ok 7 := by
  decide

/-- C4 amended: for every `r`, the encoder produces exactly `W/"<r>"` and
decoding that token yields the digits of `r` back (the full decode yields
`r` itself); a token in which `W/"` is nowhere followed by a digit is
rejected with the wrong-format error, but tokens merely containing such a
pattern are accepted even when malformed as a whole (see the
counterexample). -/
theorem revision_roundtrip (r : Nat) :
    toWeakETag r = "W/\"" ++ Nat.repr r ++ "\"" ∧
    getWeakETagValue (toWeakETag r) = .ok (Nat.repr r) ∧
    decodeRevision (toWeakETag r) = .ok r ∧
    getWeakETagValue "no-token-here" = .error .WRONG_WEAK_ETAG_FORMAT := by
  have hne : (Nat.repr r).data ≠ [] := by
    rw [repr_data_eq]
    exact digitsRec_ne_nil r
  have hdig : (Nat.repr r).data.all Char.isDigit = true := by
    rw [repr_data_eq]
    exact digitsRec_all_digits r
  have hdata : (toWeakETag r).data =
      'W' :: '/' :: '"' :: ((Nat.repr r).data ++ ['"']) := rfl
  have hval : getWeakETagValue (toWeakETag r) = .ok (Nat.repr r) := by
    unfold getWeakETagValue
    rw [hdata, weakETagScan_roundtrip _ hne hdig]
  refine ⟨rfl, hval, ?_, by decide⟩
  unfold decodeRevision
  rw [hval]
  show assertUnsignedBigInt (Nat.repr r) = .ok r
  unfold assertUnsignedBigInt
  rw [if_pos ⟨hne, hdig⟩, repr_data_eq, parseDigits_digitsRec]

/-- Witness for C4's amended statement at `r = 42`. -/
theorem revision_roundtrip_witness : decodeRevision (toWeakETag 42) = .ok 42 :=
  (revision_roundtrip 42).2.2.1

/-! ## C10 — what the decoder actually accepts and rejects -/

/-- C10 counterexample: `W/"5` contains a digit sequence right after `W/"`,
yet decoding rejects it (no closing quote follows), so the wrong-format
error is not raised "only when no digit sequence follows `W/"`". -/
theorem unclosed_token_rejected_despite_digits :
    getWeakETagValue "W/\"5" = .error .WRONG_WEAK_ETAG_FORMAT ∧
    "W/\"5" = "W/\"" ++ "5" ∧ ('5').isDigit = true := by
  decide

/-- C10 amended: the decoder accepts `W/"5abc"` and returns `5abc`
(trailing non-digits included), and in general it fails with the
wrong-format error exactly when the input nowhere contains `W/"` followed by
a digit and, later on the same line, a closing double quote. -/
theorem decode_accepts_digit_prefix_tokens :
    getWeakETagValue "W/\"5abc\"" = .ok "5abc" ∧
    (∀ s : String,
      getWeakETagValue s = .error .WRONG_WEAK_ETAG_FORMAT ↔
        ¬ hasWeakETagMatch s.data) := by
  refine ⟨by decide, ?_⟩
  intro s
  unfold getWeakETagValue
  cases hs : weakETagScan s.data with
  | none =>
    have hnm := (scan_none_iff s.data).mp hs
    simp [hnm]
  | some cap =>
    constructor
    · intro h
      simp at h
    · intro h
      exact absurd (match_of_scan_some s.data cap hs) h

/-- Witness for C10's amended statement: a token with no match decodes to
the wrong-format error, hence has no match decomposition. -/
theorem decode_accepts_digit_prefix_tokens_witness :
    ¬ hasWeakETagMatch (String.data "zzz") :=
  (decode_accepts_digit_prefix_tokens.2 "zzz").mp (by decide)

/-- Witness for C1's amended statement at a concrete sequence and tag. -/
theorem unknown_event_fold_behavior_witness :
    (ShoppingCart.rebuild (demoPositiveEvents ++ [.unknown "m2"])).toOption =
      none :=
  unknown_event_fold_behavior.2.1 demoPositiveEvents "m2"

/-- Witness for C9 at a concrete store and id. -/
theorem store_empty_events_noop_witness :
    EventStoreRepository.store appendToStream openedStore "cart-1" [] =
      openedStore :=
  store_empty_events_noop appendToStream openedStore "cart-1"
